import Mathlib

/-!
Verification development for the pg_mqtt_pub hybrid delivery engine.

The repository ships the shared header src/pg_mqtt_pub.h (constants, the
shared-memory data model, and the declarations of the queue / outbox /
routing / broker operations), the architecture record ADR-001 and the
README.  The C translation units implementing the declared operations are
not part of the source tree, so every operation below that is not fixed by
the header alone is modelled from the specification text (ADR-001 §"Mode
Transitions", §"Poison Message Guardrails", README §"Delivery Modes" and
the design document), as flagged in each doc comment.
-/

namespace PgMqttPub

/-! ### Constants, from src/pg_mqtt_pub.h lines 25-47 -/

def PGMQTTPUB_MAX_BROKERS : Nat := 8

def PGMQTTPUB_MAX_TOPIC_LEN : Nat := 1024

def PGMQTTPUB_MAX_PAYLOAD_LEN : Nat := 256 * 1024

def PGMQTTPUB_MAX_BROKER_NAME : Nat := 32

def PGMQTTPUB_DEFAULT_QUEUE_SIZE : Nat := 65536

def PGMQTTPUB_SLOT_SIZE : Nat := 2048

def PGMQTTPUB_POISON_MAX_ATTEMPTS_DEFAULT : Nat := 5

def PGMQTTPUB_POISON_BACKOFF_BASE_MS : Nat := 1000

def PGMQTTPUB_POISON_BACKOFF_CAP_MS : Nat := 30000

def PGMQTTPUB_OUTBOX_BATCH_SIZE_DEFAULT : Nat := 500

/-- Byte size of the fixed header fields of `PgMqttPubMessage`
(src/pg_mqtt_pub.h lines 104-113): `uint16 magic` (2) + `uint8 flags` (1) +
`char broker_name[PGMQTTPUB_MAX_BROKER_NAME]` (32) + `uint16 topic_len` (2) +
`uint32 payload_len` (4). -/
def slotHeaderBytes : Nat := 2 + 1 + PGMQTTPUB_MAX_BROKER_NAME + 2 + 4

/-- Declared length of the `data` array of `PgMqttPubMessage`:
`PGMQTTPUB_SLOT_SIZE - sizeof(uint16) - sizeof(uint8) - PGMQTTPUB_MAX_BROKER_NAME
- sizeof(uint16) - sizeof(uint32)` (src/pg_mqtt_pub.h lines 111-112). -/
def slotDataBytes : Nat := PGMQTTPUB_SLOT_SIZE - slotHeaderBytes

/-- Modelled from the spec: the Backoff Policy of the missing drain-worker
translation unit.  Spec §4.3: `delay(attempts) = min(base * 2^(attempts-1), cap)`
with the base and cap constants of src/pg_mqtt_pub.h lines 40-41. -/
def backoff_delay_ms (attempts : Nat) : Nat :=
  min (PGMQTTPUB_POISON_BACKOFF_BASE_MS * 2 ^ (attempts - 1))
    PGMQTTPUB_POISON_BACKOFF_CAP_MS

/-! ### Messages (PgMqttPubMessage, src/pg_mqtt_pub.h lines 104-113) -/

/-- One outgoing message: destination broker, topic, payload, qos, retain
flag, mirroring the fields serialised into a `PgMqttPubMessage` slot. -/
structure Message where
  broker_name : String
  topic : String
  payload : String
  qos : Nat
  retain : Bool
deriving Repr, DecidableEq

def Message.topic_len (m : Message) : Nat := m.topic.length

def Message.payload_len (m : Message) : Nat := m.payload.length

/-- A message fits into one ring-buffer slot when its topic and payload
bytes fit the `data` array of `PgMqttPubMessage`. -/
def Message.fitsSlot (m : Message) : Bool :=
  decide (m.topic_len + m.payload_len ≤ slotDataBytes)

/-! ### Durable queue rows and dead letters (spec §3, ADR-001) -/

/-- A row of the `mqtt_pub.outbox` table: persisted message plus identity,
`attempts` (starts 0), `next_retry_at` (starts now), `last_error`,
`created_at`; `claimed` models a row-level exclusive claim currently held
by a concurrent drainer (skip-locked semantics, spec §4.3). -/
structure OutboxRow where
  id : Nat
  msg : Message
  attempts : Nat
  next_retry_at : Nat
  last_error : Option String
  created_at : Nat
  claimed : Bool
deriving Repr, DecidableEq

/-- A row of `mqtt_pub.dead_letters`: the outbox-row snapshot plus the
dead-lettering timestamp. -/
structure DeadLetterRow where
  row : OutboxRow
  dead_lettered_at : Nat
deriving Repr, DecidableEq

/-! ### Delivery mode and broker state (src/pg_mqtt_pub.h lines 56-60, 90-100) -/

/-- `PgMqttPubDeliveryMode`: HOT = ring buffer, COLD = outbox table. -/
inductive DeliveryMode where
  | hot
  | cold
deriving Repr, DecidableEq

/-- The slice of a configured broker's runtime state the delivery engine
reads: its name and whether the connection state is CONNECTED. -/
structure BrokerStatus where
  name : String
  connected : Bool
deriving Repr, DecidableEq

/-! ### System state (PgMqttPubSharedState plus the two queues) -/

/-- The delivery-engine state: configured brokers with their connectivity,
the shared delivery mode, the ring buffer (a FIFO list bounded by
`ring_capacity`), the outbox table, the dead-letter table, and the next
fresh outbox row identity. -/
structure SysState where
  brokers : List BrokerStatus
  delivery_mode : DeliveryMode
  ring : List Message
  ring_capacity : Nat
  outbox : List OutboxRow
  dead_letters : List DeadLetterRow
  next_id : Nat
deriving Repr, DecidableEq

/-- Every configured broker reports connected. -/
def all_connected (s : SysState) : Bool := s.brokers.all (·.connected)

/-- The broker name resolves to a configured broker. -/
def broker_known (s : SysState) (name : String) : Bool :=
  s.brokers.any (fun b => b.name == name)

/-- The durable-queue pending count: the number of outbox rows, counting
every row whatever its `next_retry_at` (src/pg_mqtt_pub.h line 138,
`outbox_pending`, "approx outbox row count"). -/
def outbox_pending (s : SysState) : Nat := s.outbox.length

/-! ### Durable Queue Adapter operations (spec §4.3, ADR-001; the
implementing translation unit is absent from the tree) -/

/-- Modelled from the spec: `pgmqttpub_outbox_insert` (declared at
src/pg_mqtt_pub.h lines 175-177).  Spec §3: a fresh row starts with
`attempts = 0` and `next_retry_at = now`; identity is monotonically
increasing; rows are appended in arrival order. -/
def outbox_insert (now : Nat) (m : Message) (s : SysState) : SysState :=
  { s with
    outbox := s.outbox ++
      [{ id := s.next_id, msg := m, attempts := 0, next_retry_at := now,
         last_error := none, created_at := now, claimed := false }],
    next_id := s.next_id + 1 }

/-- A row is visible to `claim_batch`: its `next_retry_at` is not in the
future and no concurrent drainer holds its exclusive claim. -/
def row_due (now : Nat) (r : OutboxRow) : Bool :=
  decide (r.next_retry_at ≤ now) && !r.claimed

/-- Ordering of outbox rows by `created_at` ascending. -/
def rowLe (a b : OutboxRow) : Prop := a.created_at ≤ b.created_at

instance : DecidableRel rowLe :=
  fun a b => inferInstanceAs (Decidable (a.created_at ≤ b.created_at))

instance : IsTotal OutboxRow rowLe :=
  ⟨fun a b => Nat.le_total a.created_at b.created_at⟩

instance : IsTrans OutboxRow rowLe :=
  ⟨fun _ _ _ h1 h2 => Nat.le_trans h1 h2⟩

/-- Modelled from the spec: the drain query `claim_batch(limit)` of the
missing worker translation unit.  Spec §4.3: up to `limit` rows ordered by
`created_at` ascending, excluding rows whose `next_retry_at` is in the
future and rows exclusively claimed by a concurrent drainer. -/
def claim_batch (limit now : Nat) (outbox : List OutboxRow) : List OutboxRow :=
  (List.insertionSort rowLe (outbox.filter (row_due now))).take limit

/-- Modelled from the spec: `acknowledge(RowId)` deletes the row after a
successful publish (spec §4.3). -/
def acknowledge (rid : Nat) (s : SysState) : SysState :=
  { s with outbox := s.outbox.filter (fun r => r.id != rid) }

/-- Modelled from the spec: `fail(RowId, error)` of the missing worker
translation unit.  ADR-001: `attempts` is incremented on each failure; once
the incremented count reaches the attempt ceiling (default
`PGMQTTPUB_POISON_MAX_ATTEMPTS_DEFAULT`, "Attempt 5: fail → DEAD-LETTER")
the row is moved to `mqtt_pub.dead_letters` and deleted from the outbox;
otherwise `next_retry_at` is set to `now + backoff(attempts)`. -/
def fail (ceiling now : Nat) (err : String) (rid : Nat) (s : SysState) : SysState :=
  match s.outbox.find? (fun r => r.id == rid) with
  | none => s
  | some r =>
    let r1 : OutboxRow := { r with attempts := r.attempts + 1, last_error := some err }
    if ceiling ≤ r1.attempts then
      { s with
        outbox := s.outbox.filter (fun x => x.id != rid),
        dead_letters := s.dead_letters ++ [{ row := r1, dead_lettered_at := now }] }
    else
      { s with
        outbox := s.outbox.map (fun x =>
          if x.id == rid then
            { r1 with next_retry_at := now + backoff_delay_ms r1.attempts }
          else x) }

/-! ### Router (pgmqttpub_route_message, declared src/pg_mqtt_pub.h lines 181-183) -/

/-- Outcome of a `route` call (spec §6: `Accepted | Rejected(reason)`). -/
inductive RouteResult where
  | accepted
  | rejected_oversized
  | rejected_unknown_broker
deriving Repr, DecidableEq

/-- Modelled from the spec: `pgmqttpub_route_message`, whose translation
unit is absent.  Spec §6/§7: oversized topic/payload (limits
`PGMQTTPUB_MAX_TOPIC_LEN` / `PGMQTTPUB_MAX_PAYLOAD_LEN` of the header) and
unknown broker are rejected synchronously, never enqueued.  Spec §4.2 with
the "spill immediately" overflow policy (`publish_timeout_ms = 0`): in HOT
mode a push onto a full ring spills to the outbox, is Accepted, and flips
the mode to COLD; a message too large for one ring slot cannot ride the hot
path and degrades to the durable path; in COLD mode every accepted message
goes to the outbox. -/
def pgmqttpub_route_message (now : Nat) (m : Message) (s : SysState) :
    RouteResult × SysState :=
  if PGMQTTPUB_MAX_TOPIC_LEN < m.topic_len ∨ PGMQTTPUB_MAX_PAYLOAD_LEN < m.payload_len then
    (.rejected_oversized, s)
  else if ¬ broker_known s m.broker_name then
    (.rejected_unknown_broker, s)
  else
    match s.delivery_mode with
    | .cold => (.accepted, outbox_insert now m s)
    | .hot =>
      if s.ring_capacity ≤ s.ring.length then
        (.accepted, { outbox_insert now m s with delivery_mode := .cold })
      else if m.fitsSlot then
        (.accepted, { s with ring := s.ring ++ [m] })
      else
        (.accepted, outbox_insert now m s)

/-! ### Drain Worker (pgmqttpub_worker_main, declared src/pg_mqtt_pub.h
line 193; translation unit absent, modelled from spec §4.1/§4.4 and
ADR-001 §"Mode Transitions") -/

/-- Modelled from the spec: the worker's per-cycle connectivity snapshot
refresh (spec §4.4 step 1). -/
def refresh_connectivity (conn : List Bool) (s : SysState) : SysState :=
  { s with brokers := List.zipWith (fun b c => { b with connected := c }) s.brokers conn }

/-- Modelled from the spec: the worker's mode-transition evaluation (spec
§4.1, ADR-001).  HOT → COLD when any broker is not connected; COLD → HOT
only when every configured broker is connected and the outbox holds zero
pending rows (a nonzero poison backlog, rows whose `next_retry_at` is in
the future included, keeps the system COLD). -/
def apply_mode_transition (s : SysState) : SysState :=
  match s.delivery_mode with
  | .hot => if all_connected s then s else { s with delivery_mode := .cold }
  | .cold =>
    if all_connected s && decide (outbox_pending s = 0) then
      { s with delivery_mode := .hot }
    else s

/-- Modelled from the spec: the outbox-drain inner loop (spec §4.4 step 3):
for each claimed row in order, invoke the broker-publish capability `pub`;
on success `acknowledge`, on failure `fail`.  Returns the updated state and
the list of successfully published messages, in publish order. -/
def drain_rows (pub : Message → Bool) (ceiling now : Nat)
    (rows : List OutboxRow) (s : SysState) : SysState × List Message :=
  match rows with
  | [] => (s, [])
  | r :: rest =>
    if pub r.msg then
      let t := drain_rows pub ceiling now rest (acknowledge r.id s)
      (t.1, r.msg :: t.2)
    else
      drain_rows pub ceiling now rest (fail ceiling now ("publish failed") r.id s)

/-- Modelled from the spec: the durable-queue drain of one worker cycle:
`claim_batch(outbox_batch_size)` then the row-by-row loop. -/
def drain_outbox (pub : Message → Bool) (ceiling batch now : Nat)
    (s : SysState) : SysState × List Message :=
  drain_rows pub ceiling now (claim_batch batch now s.outbox) s

/-- Modelled from the spec: the ring-buffer drain inner loop (spec §4.4
step 4): pop and publish; a publish failure re-routes the message into the
durable queue rather than retrying it in place. -/
def drain_ring_msgs (pub : Message → Bool) (now : Nat)
    (msgs : List Message) (s : SysState) : SysState × List Message :=
  match msgs with
  | [] => (s, [])
  | m :: rest =>
    if pub m then
      let t := drain_ring_msgs pub now rest s
      (t.1, m :: t.2)
    else
      drain_ring_msgs pub now rest (outbox_insert now m s)

/-- Modelled from the spec: the ring-buffer drain of one worker cycle,
performed only while the mode is HOT. -/
def drain_ring (pub : Message → Bool) (now : Nat) (s : SysState) :
    SysState × List Message :=
  match s.delivery_mode with
  | .hot => drain_ring_msgs pub now s.ring { s with ring := [] }
  | .cold => (s, [])

/-- Modelled from the spec: one cycle of the Drain Worker loop (spec §4.4),
in order: refresh the broker-connectivity snapshot, evaluate and apply mode
transitions, drain the Durable Queue, then drain the Ring Queue.  Returns
the updated state and the messages published this cycle, in publish
order. -/
def worker_cycle (pub : Message → Bool) (conn : List Bool)
    (ceiling batch now : Nat) (s : SysState) : SysState × List Message :=
  let s2 := apply_mode_transition (refresh_connectivity conn s)
  let t3 := drain_outbox pub ceiling batch now s2
  let t4 := drain_ring pub now t3.1
  (t4.1, t3.2 ++ t4.2)

/-! ### Dead-letter replay (mqtt_pub.replay_dead_letters, ADR-001) -/

/-- The dead-letter rows a `replay(filter, limit)` call selects: matching
rows, up to `limit` of them. -/
def replay_matched (flt : DeadLetterRow → Bool) (limit : Nat)
    (s : SysState) : List DeadLetterRow :=
  (s.dead_letters.filter flt).take limit

/-- Modelled from the spec: `mqtt_pub.replay_dead_letters`, whose SQL body
is absent.  Spec §4.3: for matching dead-letter rows, reinsert as fresh
Durable Queue rows with `attempts = 0`, `next_retry_at = now`, then delete
the dead-letter rows; other dead-letter rows stay untouched. -/
def replay_dead_letters (flt : DeadLetterRow → Bool) (limit now : Nat)
    (s : SysState) : SysState :=
  let matched := replay_matched flt limit s
  let ids := matched.map (fun d => d.row.id)
  { s with
    outbox := s.outbox ++ matched.map (fun d =>
      { d.row with attempts := 0, next_retry_at := now, claimed := false }),
    dead_letters := s.dead_letters.filter (fun d => !(decide (d.row.id ∈ ids))) }

/-! ### Broker configuration table (src/pg_mqtt_pub.h lines 74-86, 130,
188) -/

/-- `PgMqttPubBrokerConfig`: one entry of the fixed `brokers` array in
shared memory. -/
structure PgMqttPubBrokerConfig where
  name : String
  host : String
  port : Nat
  username : String
  password : String
  use_tls : Bool
  ca_cert_path : String
  client_cert_path : String
  client_key_path : String
  active : Bool
deriving Repr, DecidableEq

/-- Modelled from the spec: the slot-search loop of `pgmqttpub_add_broker`
(declared src/pg_mqtt_pub.h line 188; translation unit absent).  The
configuration table is the fixed array
`brokers[PGMQTTPUB_MAX_BROKERS]`; the first inactive entry is overwritten
with the new configuration marked active and its index returned; when
every entry is active there is no free slot. -/
def add_broker_loop (cfg : PgMqttPubBrokerConfig) :
    List PgMqttPubBrokerConfig → Option (Nat × List PgMqttPubBrokerConfig)
  | [] => none
  | b :: rest =>
    if b.active then
      match add_broker_loop cfg rest with
      | some p => some (p.1 + 1, b :: p.2)
      | none => none
    else
      some (0, { cfg with active := true } :: rest)

/-- Modelled from the spec: `pgmqttpub_add_broker` returns the index of the
slot written, or -1 when all `PGMQTTPUB_MAX_BROKERS` entries are active,
leaving the array unchanged. -/
def pgmqttpub_add_broker (cfg : PgMqttPubBrokerConfig)
    (brokers : List PgMqttPubBrokerConfig) : Int × List PgMqttPubBrokerConfig :=
  match add_broker_loop cfg brokers with
  | some p => (Int.ofNat p.1, p.2)
  | none => (-1, brokers)

/-! ### The global step relation and reachability -/

/-- The initial state: empty queues; HOT if every configured broker reports
connected at startup, else COLD (spec §4.1). -/
def init_state (brokers : List BrokerStatus) (cap : Nat) : SysState :=
  { brokers := brokers,
    delivery_mode := if brokers.all (·.connected) then .hot else .cold,
    ring := [],
    ring_capacity := cap,
    outbox := [],
    dead_letters := [],
    next_id := 0 }

/-- One step of the whole system: either some producer routes a message, or
the Drain Worker (the sole writer of the mode) runs one cycle with a fresh
connectivity snapshot. -/
inductive Step (pub : Message → Bool) (ceiling batch : Nat) :
    SysState → SysState → Prop where
  | route (now : Nat) (m : Message) (s : SysState) :
      Step pub ceiling batch s (pgmqttpub_route_message now m s).2
  | worker (now : Nat) (conn : List Bool) (s : SysState) :
      Step pub ceiling batch s (worker_cycle pub conn ceiling batch now s).1

/-- States reachable from some initial state by routing and worker steps. -/
inductive Reachable (pub : Message → Bool) (ceiling batch : Nat) :
    SysState → Prop where
  | init (brokers : List BrokerStatus) (cap : Nat) :
      Reachable pub ceiling batch (init_state brokers cap)
  | step {s t : SysState} :
      Reachable pub ceiling batch s → Step pub ceiling batch s t →
      Reachable pub ceiling batch t

/-! ### Invariant of the hot path -/

/-- Every message held in the ring fits the `data` array of one
`PgMqttPubMessage` slot. -/
def ring_slots_ok (s : SysState) : Prop :=
  ∀ m ∈ s.ring, m.topic_len + m.payload_len ≤ slotDataBytes

/-- Iterated `fail` calls against one row: one call per element of `fs`,
each carrying its own clock value and error text. -/
def apply_fails (ceiling rid : Nat) (fs : List (Nat × String)) (s : SysState) :
    SysState :=
  match fs with
  | [] => s
  | f :: rest => apply_fails ceiling rid rest (fail ceiling f.1 f.2 rid s)

/-! ### Concrete instances used by scenario theorems and witnesses -/

/-- A broker-publish capability that always succeeds. -/
def pubAll : Message → Bool := fun _ => true

def msgSmall : Message :=
  { broker_name := "d", topic := "t", payload := "p", qos := 0, retain := false }

/-- A message whose topic exceeds `PGMQTTPUB_MAX_TOPIC_LEN`. -/
def msgBigTopic : Message :=
  { broker_name := "d", topic := String.mk (List.replicate 2000 'a'),
    payload := "p", qos := 0, retain := false }

/-- A message within the advertised limits whose payload exceeds the slot
data capacity. -/
def msgWide : Message :=
  { broker_name := "d", topic := "x",
    payload := String.mk (List.replicate 2500 'a'), qos := 0, retain := false }

def blankState : SysState := init_state [] 4

def hotState : SysState := init_state [⟨"d", true⟩] 4

/-- A HOT state whose single-slot ring is at capacity. -/
def fullRingState : SysState :=
  { brokers := [⟨"d", true⟩], delivery_mode := .hot,
    ring := [{ broker_name := "d", topic := "t1", payload := "p1", qos := 0,
               retain := false }],
    ring_capacity := 1, outbox := [], dead_letters := [], next_id := 0 }

def msgA : Message :=
  { broker_name := "brokerA", topic := "t/a", payload := "A", qos := 1, retain := false }

def msgB : Message :=
  { broker_name := "brokerA", topic := "t/b", payload := "B", qos := 1, retain := false }

def msgC : Message :=
  { broker_name := "brokerA", topic := "t/c", payload := "C", qos := 1, retain := false }

/-- C7 scenario: brokerA is disconnected and the system is COLD. -/
def c7_s0 : SysState :=
  { brokers := [⟨"brokerA", false⟩], delivery_mode := .cold, ring := [],
    ring_capacity := 4, outbox := [], dead_letters := [], next_id := 0 }

def c7_s1 : SysState := (pgmqttpub_route_message 1 msgA c7_s0).2

def c7_s2 : SysState := (pgmqttpub_route_message 2 msgB c7_s1).2

def c7_s3 : SysState := (pgmqttpub_route_message 3 msgC c7_s2).2

/-- C7 scenario: first worker cycle after brokerA reconnects. -/
def c7_cycle1 : SysState × List Message := worker_cycle pubAll [true] 5 500 10 c7_s3

/-- C7 scenario: the following worker cycle. -/
def c7_cycle2 : SysState × List Message := worker_cycle pubAll [true] 5 500 11 c7_cycle1.1

/-- Two due, unclaimed outbox rows used by the claim-batch theorems. -/
def c4_rowA : OutboxRow :=
  { id := 0, msg := msgA, attempts := 0, next_retry_at := 0,
    last_error := none, created_at := 1, claimed := false }

def c4_rowB : OutboxRow :=
  { id := 1, msg := msgB, attempts := 0, next_retry_at := 0,
    last_error := none, created_at := 2, claimed := false }

/-- A fresh outbox row holding `msgA`, used by the dead-letter witnesses. -/
def c2_row : OutboxRow :=
  { id := 3, msg := msgA, attempts := 0, next_retry_at := 0,
    last_error := none, created_at := 0, claimed := false }

/-- A store holding exactly the row `c2_row`. -/
def c2_state : SysState :=
  { brokers := [⟨"brokerA", true⟩], delivery_mode := .cold, ring := [],
    ring_capacity := 4, outbox := [c2_row], dead_letters := [], next_id := 4 }

def c8_deadA : DeadLetterRow :=
  { row := { id := 10, msg := msgA, attempts := 5, next_retry_at := 90,
             last_error := some ("acl"), created_at := 30, claimed := false },
    dead_lettered_at := 100 }

def c8_deadB : DeadLetterRow :=
  { row := { id := 11, msg := msgB, attempts := 5, next_retry_at := 95,
             last_error := some ("acl"), created_at := 31, claimed := false },
    dead_lettered_at := 101 }

/-- A store holding two dead-letter rows and nothing pending. -/
def c8_state : SysState :=
  { brokers := [⟨"brokerA", true⟩], delivery_mode := .hot, ring := [],
    ring_capacity := 4, outbox := [], dead_letters := [c8_deadA, c8_deadB],
    next_id := 12 }

/-- The replay filter selecting rows dead-lettered before time 101. -/
def c8_filter : DeadLetterRow → Bool := fun d => decide (d.dead_lettered_at < 101)

/-- A COLD initial state with one disconnected broker. -/
def coldStart : SysState := init_state [⟨"d", false⟩] 4

/-- Five consecutive failure events, one per attempt, with their clock
values. -/
def c2_fails : List (Nat × String) :=
  [(1, "e"), (2, "e"), (3, "e"), (4, "e"), (5, "e")]

/-! ## Theorems -/

/-- C3: for every attempt count n ≥ 1 the Backoff Policy returns
`delay(n) = min(base * 2^(n-1), cap)`; with the default base of 1000 ms and
cap of 30000 ms this yields 1s, 2s, 4s, 8s, 16s, capped at 30s
thereafter. -/
theorem backoff_policy_formula :
    ∀ n : Nat, 1 ≤ n →
      backoff_delay_ms n =
        min (PGMQTTPUB_POISON_BACKOFF_BASE_MS * 2 ^ (n - 1))
          PGMQTTPUB_POISON_BACKOFF_CAP_MS ∧
      (backoff_delay_ms 1 = 1000 ∧ backoff_delay_ms 2 = 2000 ∧
        backoff_delay_ms 3 = 4000 ∧ backoff_delay_ms 4 = 8000 ∧
        backoff_delay_ms 5 = 16000) ∧
      (6 ≤ n → backoff_delay_ms n = 30000) := by
  intro n h1
  refine ⟨rfl, by decide, ?_⟩
  intro h6
  have h5 : 5 ≤ n - 1 := by omega
  have hp : (2 : Nat) ^ 5 ≤ 2 ^ (n - 1) := Nat.pow_le_pow_right (by decide) h5
  have hb : 32000 ≤ 1000 * 2 ^ (n - 1) := by
    calc 32000 = 1000 * 2 ^ 5 := by decide
    _ ≤ 1000 * 2 ^ (n - 1) := Nat.mul_le_mul_left _ hp
  unfold backoff_delay_ms PGMQTTPUB_POISON_BACKOFF_BASE_MS PGMQTTPUB_POISON_BACKOFF_CAP_MS
  omega

/-- C3 witness: the theorem applied at n = 7. -/
theorem backoff_policy_formula_witness :
    backoff_delay_ms 7 =
      min (PGMQTTPUB_POISON_BACKOFF_BASE_MS * 2 ^ (7 - 1))
        PGMQTTPUB_POISON_BACKOFF_CAP_MS ∧
    (backoff_delay_ms 1 = 1000 ∧ backoff_delay_ms 2 = 2000 ∧
      backoff_delay_ms 3 = 4000 ∧ backoff_delay_ms 4 = 8000 ∧
      backoff_delay_ms 5 = 16000) ∧
    (6 ≤ 7 → backoff_delay_ms 7 = 30000) :=
  backoff_policy_formula 7 (by decide)

/-- C6: a message whose topic or payload exceeds the fixed maxima
(`PGMQTTPUB_MAX_TOPIC_LEN`, `PGMQTTPUB_MAX_PAYLOAD_LEN`) is rejected by the
Router synchronously with the oversized error and the state — hence both
queues — is untouched; a message within both limits is never rejected for
size. -/
theorem router_oversized_rejection :
    ∀ (now : Nat) (m : Message) (s : SysState),
      ((PGMQTTPUB_MAX_TOPIC_LEN < m.topic_len ∨
          PGMQTTPUB_MAX_PAYLOAD_LEN < m.payload_len) →
        (pgmqttpub_route_message now m s).1 = .rejected_oversized ∧
        (pgmqttpub_route_message now m s).2 = s) ∧
      (m.topic_len ≤ PGMQTTPUB_MAX_TOPIC_LEN →
        m.payload_len ≤ PGMQTTPUB_MAX_PAYLOAD_LEN →
        (pgmqttpub_route_message now m s).1 ≠ .rejected_oversized) := by
  intro now m s
  constructor
  · intro h
    unfold pgmqttpub_route_message
    rw [if_pos h]
    exact ⟨rfl, rfl⟩
  · intro h1 h2
    have hcond : ¬ (PGMQTTPUB_MAX_TOPIC_LEN < m.topic_len ∨
        PGMQTTPUB_MAX_PAYLOAD_LEN < m.payload_len) := by omega
    unfold pgmqttpub_route_message
    rw [if_neg hcond]
    split
    · simp
    · split
      · simp
      · split
        · simp
        · split <;> simp

/-- C6 witness: the rejection branch at a 2000-character topic, and the
acceptance branch at a small message, both against the empty initial
state. -/
theorem router_oversized_rejection_witness :
    ((pgmqttpub_route_message 0 msgBigTopic blankState).1 = .rejected_oversized ∧
      (pgmqttpub_route_message 0 msgBigTopic blankState).2 = blankState) ∧
    (pgmqttpub_route_message 0 msgSmall blankState).1 ≠ .rejected_oversized :=
  ⟨(router_oversized_rejection 0 msgBigTopic blankState).1
      (Or.inl (by
        show PGMQTTPUB_MAX_TOPIC_LEN < (List.replicate 2000 'a').length
        rw [List.length_replicate]
        decide)),
   (router_oversized_rejection 0 msgSmall blankState).2 (by decide) (by decide)⟩

/-- Helper: the add-broker slot search keeps the array length. -/
theorem add_broker_loop_spec (cfg : PgMqttPubBrokerConfig) :
    ∀ l : List PgMqttPubBrokerConfig,
      ∀ p, add_broker_loop cfg l = some p → p.2.length = l.length ∧ p.1 < l.length := by
  intro l
  induction l with
  | nil => intro p hp; simp [add_broker_loop] at hp
  | cons b rest ih =>
    intro p hp
    unfold add_broker_loop at hp
    by_cases hb : b.active
    · rw [if_pos hb] at hp
      cases hq : add_broker_loop cfg rest with
      | none => rw [hq] at hp; simp at hp
      | some q =>
        rw [hq] at hp
        simp at hp
        obtain ⟨h1, h2⟩ := ih q hq
        subst hp
        simp [h1]
        omega
    · rw [if_neg hb] at hp
      simp at hp
      subst hp
      simp

/-- Helper: when every entry is active the slot search finds nothing. -/
theorem add_broker_loop_full (cfg : PgMqttPubBrokerConfig) :
    ∀ l : List PgMqttPubBrokerConfig,
      (∀ b ∈ l, b.active = true) → add_broker_loop cfg l = none := by
  intro l
  induction l with
  | nil => intro _; rfl
  | cons b rest ih =>
    intro h
    have hb : b.active = true := h b (by simp)
    unfold add_broker_loop
    rw [if_pos hb, ih (fun x hx => h x (by simp [hx]))]

/-- C10: the broker table is a fixed array of `PGMQTTPUB_MAX_BROKERS = 8`
entries — `pgmqttpub_add_broker` never changes its length, returns -1
leaving the table unchanged when all 8 entries are active, and any index it
does return lies inside the array. -/
theorem add_broker_bounded :
    ∀ (cfg : PgMqttPubBrokerConfig) (brokers : List PgMqttPubBrokerConfig),
      brokers.length = PGMQTTPUB_MAX_BROKERS →
      (pgmqttpub_add_broker cfg brokers).2.length = PGMQTTPUB_MAX_BROKERS ∧
      ((∀ b ∈ brokers, b.active = true) →
        (pgmqttpub_add_broker cfg brokers).1 = -1 ∧
        (pgmqttpub_add_broker cfg brokers).2 = brokers) ∧
      (∀ i : Nat, (pgmqttpub_add_broker cfg brokers).1 = Int.ofNat i →
        i < PGMQTTPUB_MAX_BROKERS) := by
  intro cfg brokers hlen
  refine ⟨?_, ?_, ?_⟩
  · unfold pgmqttpub_add_broker
    cases hq : add_broker_loop cfg brokers with
    | none => simpa using hlen
    | some q =>
      have := (add_broker_loop_spec cfg brokers q hq).1
      simp [this, hlen]
  · intro hall
    unfold pgmqttpub_add_broker
    rw [add_broker_loop_full cfg brokers hall]
    exact ⟨rfl, rfl⟩
  · intro i hi
    unfold pgmqttpub_add_broker at hi
    cases hq : add_broker_loop cfg brokers with
    | none =>
      rw [hq] at hi
      simp at hi
    | some q =>
      rw [hq] at hi
      simp at hi
      have := (add_broker_loop_spec cfg brokers q hq).2
      omega

/-- C10 witness: a table of 8 active entries rejects a ninth broker. -/
theorem add_broker_bounded_witness :
    (pgmqttpub_add_broker
        (PgMqttPubBrokerConfig.mk ("nine") ("h") 1883 ("") ("") false ("") ("") ("") false)
        (List.replicate 8
          (PgMqttPubBrokerConfig.mk ("b") ("h") 1883 ("") ("") false ("") ("") ("") true))).2.length =
      PGMQTTPUB_MAX_BROKERS ∧
    ((∀ b ∈ List.replicate 8
          (PgMqttPubBrokerConfig.mk ("b") ("h") 1883 ("") ("") false ("") ("") ("") true),
        b.active = true) →
      (pgmqttpub_add_broker
          (PgMqttPubBrokerConfig.mk ("nine") ("h") 1883 ("") ("") false ("") ("") ("") false)
          (List.replicate 8
            (PgMqttPubBrokerConfig.mk ("b") ("h") 1883 ("") ("") false ("") ("") ("") true))).1 = -1 ∧
      (pgmqttpub_add_broker
          (PgMqttPubBrokerConfig.mk ("nine") ("h") 1883 ("") ("") false ("") ("") ("") false)
          (List.replicate 8
            (PgMqttPubBrokerConfig.mk ("b") ("h") 1883 ("") ("") false ("") ("") ("") true))).2 =
        List.replicate 8
          (PgMqttPubBrokerConfig.mk ("b") ("h") 1883 ("") ("") false ("") ("") ("") true)) ∧
    (∀ i : Nat,
      (pgmqttpub_add_broker
          (PgMqttPubBrokerConfig.mk ("nine") ("h") 1883 ("") ("") false ("") ("") ("") false)
          (List.replicate 8
            (PgMqttPubBrokerConfig.mk ("b") ("h") 1883 ("") ("") false ("") ("") ("") true))).1 =
        Int.ofNat i → i < PGMQTTPUB_MAX_BROKERS) :=
  add_broker_bounded
    (PgMqttPubBrokerConfig.mk ("nine") ("h") 1883 ("") ("") false ("") ("") ("") false)
    (List.replicate 8
      (PgMqttPubBrokerConfig.mk ("b") ("h") 1883 ("") ("") false ("") ("") ("") true))
    (by decide)

/-! ### Preservation lemmas shared by the mode and hot-path theorems -/

/-- Helper: `fail` only touches the outbox and dead-letter tables. -/
theorem fail_preserves (ceiling now : Nat) (err : String) (rid : Nat) (s : SysState) :
    (fail ceiling now err rid s).delivery_mode = s.delivery_mode ∧
    (fail ceiling now err rid s).brokers = s.brokers ∧
    (fail ceiling now err rid s).ring = s.ring ∧
    (fail ceiling now err rid s).ring_capacity = s.ring_capacity := by
  unfold fail
  refine ⟨?_, ?_, ?_, ?_⟩
  all_goals
    split
    · rfl
    · dsimp only
      split
      · rfl
      · rfl

/-- Helper: the outbox-drain inner loop only touches the outbox and
dead-letter tables. -/
theorem drain_rows_preserves (pub : Message → Bool) (ceiling now : Nat) :
    ∀ (rows : List OutboxRow) (s : SysState),
      (drain_rows pub ceiling now rows s).1.delivery_mode = s.delivery_mode ∧
      (drain_rows pub ceiling now rows s).1.brokers = s.brokers ∧
      (drain_rows pub ceiling now rows s).1.ring = s.ring ∧
      (drain_rows pub ceiling now rows s).1.ring_capacity = s.ring_capacity := by
  intro rows
  induction rows with
  | nil => intro s; exact ⟨rfl, rfl, rfl, rfl⟩
  | cons r rest ih =>
    intro s
    unfold drain_rows
    by_cases hp : pub r.msg
    · simp only [hp, if_true]
      exact ih (acknowledge r.id s)
    · simp only [hp, if_false, Bool.false_eq_true]
      have h1 := ih (fail ceiling now ("publish failed") r.id s)
      have h2 := fail_preserves ceiling now ("publish failed") r.id s
      exact ⟨h1.1.trans h2.1, h1.2.1.trans h2.2.1, h1.2.2.1.trans h2.2.2.1,
        h1.2.2.2.trans h2.2.2.2⟩

/-- Helper: the ring-drain inner loop only touches the outbox and the
fresh-identity counter. -/
theorem drain_ring_msgs_preserves (pub : Message → Bool) (now : Nat) :
    ∀ (msgs : List Message) (s : SysState),
      (drain_ring_msgs pub now msgs s).1.delivery_mode = s.delivery_mode ∧
      (drain_ring_msgs pub now msgs s).1.brokers = s.brokers ∧
      (drain_ring_msgs pub now msgs s).1.ring = s.ring ∧
      (drain_ring_msgs pub now msgs s).1.ring_capacity = s.ring_capacity := by
  intro msgs
  induction msgs with
  | nil => intro s; exact ⟨rfl, rfl, rfl, rfl⟩
  | cons m rest ih =>
    intro s
    unfold drain_ring_msgs
    by_cases hp : pub m
    · simp only [hp, if_true]
      exact ih s
    · simp only [hp, if_false, Bool.false_eq_true]
      exact ih (outbox_insert now m s)

/-- Helper: the ring drain keeps the mode and broker table, and leaves the
ring either untouched (COLD) or empty (HOT). -/
theorem drain_ring_preserves (pub : Message → Bool) (now : Nat) (s : SysState) :
    (drain_ring pub now s).1.delivery_mode = s.delivery_mode ∧
    (drain_ring pub now s).1.brokers = s.brokers ∧
    ((drain_ring pub now s).1.ring = s.ring ∨ (drain_ring pub now s).1.ring = []) := by
  unfold drain_ring
  split
  · have h := drain_ring_msgs_preserves pub now s.ring { s with ring := [] }
    exact ⟨h.1, h.2.1, Or.inr h.2.2.1⟩
  · exact ⟨rfl, rfl, Or.inl rfl⟩

/-- Helper: the mode-transition evaluation only touches the mode flag. -/
theorem apply_mode_transition_preserves (s : SysState) :
    (apply_mode_transition s).brokers = s.brokers ∧
    (apply_mode_transition s).ring = s.ring ∧
    (apply_mode_transition s).outbox = s.outbox ∧
    (apply_mode_transition s).ring_capacity = s.ring_capacity := by
  unfold apply_mode_transition
  split
  · split
    · exact ⟨rfl, rfl, rfl, rfl⟩
    · exact ⟨rfl, rfl, rfl, rfl⟩
  · split
    · exact ⟨rfl, rfl, rfl, rfl⟩
    · exact ⟨rfl, rfl, rfl, rfl⟩

/-- Helper: one worker cycle ends in the mode selected by the transition
evaluation at the head of the cycle — the drains never change it — with
the broker table as refreshed, and a ring that is at most the old ring. -/
theorem worker_cycle_state (pub : Message → Bool) (conn : List Bool)
    (ceiling batch now : Nat) (s : SysState) :
    (worker_cycle pub conn ceiling batch now s).1.delivery_mode =
      (apply_mode_transition (refresh_connectivity conn s)).delivery_mode ∧
    (worker_cycle pub conn ceiling batch now s).1.brokers =
      (refresh_connectivity conn s).brokers ∧
    ((worker_cycle pub conn ceiling batch now s).1.ring = s.ring ∨
      (worker_cycle pub conn ceiling batch now s).1.ring = []) := by
  unfold worker_cycle drain_outbox
  have h2 := apply_mode_transition_preserves (refresh_connectivity conn s)
  have h3 := drain_rows_preserves pub ceiling now
    (claim_batch batch now (apply_mode_transition (refresh_connectivity conn s)).outbox)
    (apply_mode_transition (refresh_connectivity conn s))
  have h4 := drain_ring_preserves pub now
    (drain_rows pub ceiling now
      (claim_batch batch now (apply_mode_transition (refresh_connectivity conn s)).outbox)
      (apply_mode_transition (refresh_connectivity conn s))).1
  refine ⟨h4.1.trans h3.1, (h4.2.1.trans h3.2.1).trans h2.1, ?_⟩
  rcases h4.2.2 with h | h
  · rw [h, h3.2.2.1, h2.2.1]
    exact Or.inl rfl
  · exact Or.inr h

/-- Helper: routing never produces HOT out of COLD — the new mode is the
old one or COLD. -/
theorem route_mode (now : Nat) (m : Message) (s : SysState) :
    (pgmqttpub_route_message now m s).2.delivery_mode = s.delivery_mode ∨
    (pgmqttpub_route_message now m s).2.delivery_mode = .cold := by
  unfold pgmqttpub_route_message
  split
  · exact Or.inl rfl
  · split
    · exact Or.inl rfl
    · split
      · exact Or.inl rfl
      · split
        · exact Or.inr rfl
        · split
          · exact Or.inl rfl
          · exact Or.inl rfl

/-- Helper: routing either leaves the ring alone or appends one message
that fits a slot. -/
theorem route_ring (now : Nat) (m : Message) (s : SysState) :
    (pgmqttpub_route_message now m s).2.ring = s.ring ∨
    ((pgmqttpub_route_message now m s).2.ring = s.ring ++ [m] ∧
      m.fitsSlot = true) := by
  unfold pgmqttpub_route_message
  split
  · exact Or.inl rfl
  · split
    · exact Or.inl rfl
    · split
      · exact Or.inl rfl
      · split
        · exact Or.inl rfl
        · split
          next hfit => exact Or.inr ⟨rfl, hfit⟩
          next => exact Or.inl rfl

/-! ### C9: the hot path is bounded by the slot layout -/

/-- C9: the slot data capacity is `PGMQTTPUB_SLOT_SIZE` minus the 41-byte
slot header, i.e. 2007 bytes — far below the advertised
`PGMQTTPUB_MAX_PAYLOAD_LEN` of 262144; every message held in a ring slot
satisfies `topic_len + payload_len ≤ 2007` (the bound is preserved by
routing and by worker cycles), so a message with a payload larger than the
slot data capacity is never carried by the hot path, even while HOT. -/
theorem hot_path_slot_bound :
    slotHeaderBytes = 41 ∧
    slotDataBytes = PGMQTTPUB_SLOT_SIZE - 41 ∧
    slotDataBytes = 2007 ∧
    PGMQTTPUB_MAX_PAYLOAD_LEN = 262144 ∧
    slotDataBytes < PGMQTTPUB_MAX_PAYLOAD_LEN ∧
    (∀ (now : Nat) (m : Message) (s : SysState), ring_slots_ok s →
      ring_slots_ok (pgmqttpub_route_message now m s).2) ∧
    (∀ (pub : Message → Bool) (conn : List Bool) (ceiling batch now : Nat)
        (s : SysState), ring_slots_ok s →
      ring_slots_ok (worker_cycle pub conn ceiling batch now s).1) ∧
    (∀ (now : Nat) (m : Message) (s : SysState) (big : Message),
      ring_slots_ok s → slotDataBytes < big.payload_len →
      big ∉ (pgmqttpub_route_message now m s).2.ring) := by
  refine ⟨rfl, rfl, rfl, rfl, by decide, ?_, ?_, ?_⟩
  · intro now m s hok
    rcases route_ring now m s with h | ⟨h, hfit⟩
    · intro x hx
      rw [h] at hx
      exact hok x hx
    · intro x hx
      rw [h] at hx
      rcases List.mem_append.1 hx with hx | hx
      · exact hok x hx
      · have hxm : x = m := by simpa using hx
        subst hxm
        exact of_decide_eq_true hfit
  · intro pub conn ceiling batch now s hok
    rcases (worker_cycle_state pub conn ceiling batch now s).2.2 with h | h
    · intro x hx
      rw [h] at hx
      exact hok x hx
    · intro x hx
      rw [h] at hx
      simp at hx
  · intro now m s big hok hbig hmem
    have hok2 : ring_slots_ok (pgmqttpub_route_message now m s).2 := by
      rcases route_ring now m s with h | ⟨h, hfit⟩
      · intro x hx
        rw [h] at hx
        exact hok x hx
      · intro x hx
        rw [h] at hx
        rcases List.mem_append.1 hx with hx | hx
        · exact hok x hx
        · have hxm : x = m := by simpa using hx
          subst hxm
          exact of_decide_eq_true hfit
    have := hok2 big hmem
    omega

/-- C9 witness: the preservation conjuncts applied at a concrete small
message routed into the empty HOT initial state, and the exclusion of a
payload wider than one slot. -/
theorem hot_path_slot_bound_witness :
    ring_slots_ok (pgmqttpub_route_message 0 msgSmall hotState).2 ∧
    msgWide ∉ (pgmqttpub_route_message 0 msgSmall hotState).2.ring :=
  ⟨hot_path_slot_bound.2.2.2.2.2.1 0 msgSmall hotState
      (fun m hm => by simp [hotState, init_state] at hm),
   hot_path_slot_bound.2.2.2.2.2.2.2 0 msgSmall hotState msgWide
      (fun m hm => by simp [hotState, init_state] at hm)
      (by
        show slotDataBytes < (List.replicate 2500 'a').length
        rw [List.length_replicate]
        decide)⟩

/-! ### C5: a full ring spills, accepts, and flips the mode -/

/-- C5: when the mode is HOT and the Ring Queue is at capacity, routing a
valid message never drops it and never returns Full/Rejected: the result is
Accepted, the message is appended to the Durable Queue as a fresh row, the
ring is untouched, and the Delivery Mode flips HOT → COLD. -/
theorem route_full_ring_spills :
    ∀ (now : Nat) (m : Message) (s : SysState),
      s.delivery_mode = .hot →
      s.ring_capacity ≤ s.ring.length →
      m.topic_len ≤ PGMQTTPUB_MAX_TOPIC_LEN →
      m.payload_len ≤ PGMQTTPUB_MAX_PAYLOAD_LEN →
      broker_known s m.broker_name = true →
      (pgmqttpub_route_message now m s).1 = .accepted ∧
      (pgmqttpub_route_message now m s).2.delivery_mode = .cold ∧
      (pgmqttpub_route_message now m s).2.outbox =
        s.outbox ++ [{ id := s.next_id, msg := m, attempts := 0,
                       next_retry_at := now, last_error := none,
                       created_at := now, claimed := false }] ∧
      (pgmqttpub_route_message now m s).2.ring = s.ring := by
  intro now m s hmode hfull h1 h2 hbk
  have hcond : ¬ (PGMQTTPUB_MAX_TOPIC_LEN < m.topic_len ∨
      PGMQTTPUB_MAX_PAYLOAD_LEN < m.payload_len) := by omega
  unfold pgmqttpub_route_message
  rw [if_neg hcond, if_neg (by simp [hbk]), hmode]
  rw [if_pos hfull]
  exact ⟨rfl, rfl, rfl, rfl⟩

/-- C5 witness: a single-slot ring already holding one message spills the
next message to the outbox and flips to COLD. -/
theorem route_full_ring_spills_witness :
    (pgmqttpub_route_message 7 msgSmall fullRingState).1 = .accepted ∧
    (pgmqttpub_route_message 7 msgSmall fullRingState).2.delivery_mode = .cold ∧
    (pgmqttpub_route_message 7 msgSmall fullRingState).2.outbox =
      fullRingState.outbox ++
        [{ id := fullRingState.next_id, msg := msgSmall, attempts := 0,
           next_retry_at := 7, last_error := none, created_at := 7,
           claimed := false }] ∧
    (pgmqttpub_route_message 7 msgSmall fullRingState).2.ring = fullRingState.ring :=
  route_full_ring_spills 7 msgSmall fullRingState
    rfl (by decide) (by decide) (by decide) (by decide)

/-- Helper: the transition evaluation of a COLD state fires HOT exactly
when every broker is connected and the pending count is zero. -/
theorem apply_mode_transition_cold (s : SysState) (h : s.delivery_mode = .cold) :
    apply_mode_transition s =
      if all_connected s && decide (outbox_pending s = 0) then
        { s with delivery_mode := .hot }
      else s := by
  unfold apply_mode_transition
  rw [h]

/-- C1: along any step out of a reachable COLD state, the Delivery Mode
reaches HOT only when the durable-queue pending count is zero — counting
every outbox row, those with `next_retry_at` still in the future included —
and every configured broker of the refreshed snapshot reports connected;
in particular COLD never transitions to HOT while the pending count is
positive. -/
theorem cold_to_hot_requires_drained_outbox
    (pub : Message → Bool) (ceiling batch : Nat) {s t : SysState}
    (hreach : Reachable pub ceiling batch s)
    (hstep : Step pub ceiling batch s t)
    (hcold : s.delivery_mode = .cold)
    (hhot : t.delivery_mode = .hot) :
    outbox_pending s = 0 ∧ s.outbox = [] ∧ all_connected t = true := by
  clear hreach
  cases hstep with
  | route now m =>
    rcases route_mode now m s with h | h
    · rw [h, hcold] at hhot
      exact absurd hhot (by decide)
    · rw [h] at hhot
      exact absurd hhot (by decide)
  | worker now conn =>
    have hw := worker_cycle_state pub conn ceiling batch now s
    have hm1 : (refresh_connectivity conn s).delivery_mode = .cold := hcold
    have htrans := apply_mode_transition_cold (refresh_connectivity conn s) hm1
    by_cases hc : (all_connected (refresh_connectivity conn s) &&
        decide (outbox_pending (refresh_connectivity conn s) = 0)) = true
    · rw [Bool.and_eq_true] at hc
      obtain ⟨hconn, hpend⟩ := hc
      have hp0 : outbox_pending (refresh_connectivity conn s) = 0 :=
        of_decide_eq_true hpend
      have hout : s.outbox = [] := List.length_eq_zero.1 hp0
      refine ⟨?_, hout, ?_⟩
      · show s.outbox.length = 0
        rw [hout]
        rfl
      · show ((worker_cycle pub conn ceiling batch now s).1.brokers.all (·.connected)) = true
        rw [hw.2.1]
        exact hconn
    · have hmode : (apply_mode_transition (refresh_connectivity conn s)).delivery_mode = .cold := by
        rw [htrans, if_neg hc]
        exact hm1
      rw [hw.1, hmode] at hhot
      exact absurd hhot (by decide)

/-- C1 witness: a reachable COLD state with an empty outbox transitions to
HOT on a worker cycle once its broker reconnects. -/
theorem cold_to_hot_requires_drained_outbox_witness :
    outbox_pending coldStart = 0 ∧ coldStart.outbox = [] ∧
    all_connected (worker_cycle pubAll [true] 5 500 0 coldStart).1 = true :=
  cold_to_hot_requires_drained_outbox pubAll 5 500
    (Reachable.init [⟨"d", false⟩] 4)
    (Step.worker 0 [true] coldStart)
    (by decide) (by decide)

/-- C7: with brokerA down, three messages A, B, C routed in sequence land
in the Durable Queue in enqueue order; after reconnection the first worker
cycle publishes and deletes exactly A, then B, then C in that order,
leaving the mode COLD until the queue is seen empty, and the next cycle
returns the mode to HOT; moreover every worker cycle performs the Durable
Queue drain before the Ring Queue drain. -/
theorem outage_drain_preserves_order :
    c7_s3.outbox.map (fun r => r.msg) = [msgA, msgB, msgC] ∧
    c7_cycle1.2 = [msgA, msgB, msgC] ∧
    c7_cycle1.1.outbox = [] ∧
    c7_cycle1.1.delivery_mode = .cold ∧
    c7_cycle2.2 = [] ∧
    c7_cycle2.1.delivery_mode = .hot ∧
    c7_cycle2.1.outbox = [] ∧
    (∀ (pub : Message → Bool) (conn : List Bool) (ceiling batch now : Nat)
        (s : SysState),
      (worker_cycle pub conn ceiling batch now s).2 =
        (drain_outbox pub ceiling batch now
          (apply_mode_transition (refresh_connectivity conn s))).2 ++
        (drain_ring pub now
          (drain_outbox pub ceiling batch now
            (apply_mode_transition (refresh_connectivity conn s))).1).2) :=
  ⟨by decide, by decide, by decide, by decide, by decide, by decide, by decide,
   fun _ _ _ _ _ _ => rfl⟩

/-! ### C2: exponential backoff and dead-lettering at the attempt ceiling -/

/-- Helper: a below-ceiling `fail` against a one-row store increments
`attempts`, stamps the error, and pushes `next_retry_at` out by the
backoff delay. -/
theorem fail_step_retry (ceiling now : Nat) (e : String) (rid : Nat)
    (r : OutboxRow) (s : SysState)
    (h1 : s.outbox = [r]) (h2 : r.id = rid) (h3 : r.attempts + 1 < ceiling) :
    (fail ceiling now e rid s).outbox =
      [{ r with
          attempts := r.attempts + 1,
          last_error := some e,
          next_retry_at := now + backoff_delay_ms (r.attempts + 1) }] ∧
    (fail ceiling now e rid s).dead_letters = s.dead_letters := by
  have hfind : s.outbox.find? (fun x => x.id == rid) = some r := by
    rw [h1]
    simp [List.find?, h2]
  have hle : ¬ (ceiling ≤ r.attempts + 1) := by omega
  unfold fail
  rw [hfind]
  dsimp only
  rw [if_neg hle]
  refine ⟨?_, rfl⟩
  rw [h1]
  simp [h2]

/-- Helper: a `fail` that reaches the ceiling against a one-row store
empties the outbox and appends the row, with its incremented attempt
count, to the dead letters. -/
theorem fail_step_dead (ceiling now : Nat) (e : String) (rid : Nat)
    (r : OutboxRow) (s : SysState)
    (h1 : s.outbox = [r]) (h2 : r.id = rid) (h3 : ceiling ≤ r.attempts + 1) :
    (fail ceiling now e rid s).outbox = [] ∧
    (fail ceiling now e rid s).dead_letters =
      s.dead_letters ++
        [{ row := { r with attempts := r.attempts + 1, last_error := some e },
           dead_lettered_at := now }] := by
  have hfind : s.outbox.find? (fun x => x.id == rid) = some r := by
    rw [h1]
    simp [List.find?, h2]
  unfold fail
  rw [hfind]
  dsimp only
  rw [if_pos h3]
  refine ⟨?_, rfl⟩
  rw [h1]
  simp [h2]

/-- Helper: iterated `fail` distributes over list append. -/
theorem apply_fails_append (ceiling rid : Nat) :
    ∀ (xs ys : List (Nat × String)) (s : SysState),
      apply_fails ceiling rid (xs ++ ys) s =
        apply_fails ceiling rid ys (apply_fails ceiling rid xs s) := by
  intro xs
  induction xs with
  | nil => intro ys s; rfl
  | cons f rest ih =>
    intro ys s
    show apply_fails ceiling rid (rest ++ ys) (fail ceiling f.1 f.2 rid s) = _
    exact ih ys (fail ceiling f.1 f.2 rid s)

/-- Helper: as long as the failure count stays below the ceiling, the row
survives every `fail` with its attempt count equal to the number of
failures, and nothing is dead-lettered. -/
theorem apply_fails_below (ceiling rid : Nat) :
    ∀ (fs : List (Nat × String)) (r : OutboxRow) (s : SysState),
      s.outbox = [r] → r.id = rid → r.attempts + fs.length < ceiling →
      ∃ r' : OutboxRow,
        (apply_fails ceiling rid fs s).outbox = [r'] ∧
        r'.attempts = r.attempts + fs.length ∧
        r'.id = rid ∧ r'.msg = r.msg ∧
        (apply_fails ceiling rid fs s).dead_letters = s.dead_letters := by
  intro fs
  induction fs with
  | nil =>
    intro r s h1 h2 h3
    exact ⟨r, h1, by simp, h2, rfl, rfl⟩
  | cons f rest ih =>
    intro r s h1 h2 h3
    rw [List.length_cons] at h3
    have hstep := fail_step_retry ceiling f.1 f.2 rid r s h1 h2 (by omega)
    obtain ⟨r', ha, hb, hc, hd, he⟩ :=
      ih { r with
            attempts := r.attempts + 1,
            last_error := some f.2,
            next_retry_at := f.1 + backoff_delay_ms (r.attempts + 1) }
        (fail ceiling f.1 f.2 rid s) hstep.1 h2
        (by
          show r.attempts + 1 + rest.length < ceiling
          omega)
    have hb2 : r'.attempts = r.attempts + 1 + rest.length := hb
    refine ⟨r', ha, ?_, hc, hd, ?_⟩
    · rw [List.length_cons]
      omega
    · show (apply_fails ceiling rid rest (fail ceiling f.1 f.2 rid s)).dead_letters =
        s.dead_letters
      rw [he]
      exact hstep.2

/-- C2: starting from a fresh row (`attempts = 0`) alone in the durable
queue, exactly `ceiling` consecutive `fail` calls delete the row from the
queue and move it to the Dead Letter set with `attempts` equal to the
ceiling; and a single `fail` that does not reach the ceiling keeps the row,
increments `attempts`, sets `next_retry_at` to now plus the backoff of the
new attempt count, and dead-letters nothing. -/
theorem fail_dead_letters_after_ceiling :
    (∀ (ceiling rid : Nat) (fs : List (Nat × String)) (r : OutboxRow)
        (s : SysState),
      s.outbox = [r] → r.id = rid → r.attempts = 0 → fs.length = ceiling →
      1 ≤ ceiling →
      (apply_fails ceiling rid fs s).outbox = [] ∧
      ∃ d : DeadLetterRow,
        (apply_fails ceiling rid fs s).dead_letters = s.dead_letters ++ [d] ∧
        d.row.attempts = ceiling ∧ d.row.id = rid ∧ d.row.msg = r.msg) ∧
    (∀ (ceiling now : Nat) (e : String) (rid : Nat) (r : OutboxRow)
        (s : SysState),
      s.outbox = [r] → r.id = rid → r.attempts + 1 < ceiling →
      ∃ r' : OutboxRow,
        (fail ceiling now e rid s).outbox = [r'] ∧
        r'.attempts = r.attempts + 1 ∧
        r'.next_retry_at = now + backoff_delay_ms (r.attempts + 1) ∧
        (fail ceiling now e rid s).dead_letters = s.dead_letters) := by
  constructor
  · intro ceiling rid fs r s h1 h2 h0 hlen hpos
    rcases List.eq_nil_or_concat fs with hnil | ⟨L, f, hfs⟩
    · rw [hnil] at hlen
      simp at hlen
      omega
    · subst hfs
      rw [List.concat_eq_append] at hlen ⊢
      rw [List.length_append, List.length_cons, List.length_nil] at hlen
      have hLlen : L.length + 1 = ceiling := hlen
      obtain ⟨r', ha, hb, hc, hd, he⟩ :=
        apply_fails_below ceiling rid L r s h1 h2 (by omega)
      have hfin := fail_step_dead ceiling f.1 f.2 rid r'
        (apply_fails ceiling rid L s) ha hc (by omega)
      rw [apply_fails_append]
      constructor
      · show (apply_fails ceiling rid [] (fail ceiling f.1 f.2 rid
          (apply_fails ceiling rid L s))).outbox = []
        exact hfin.1
      · refine ⟨{ row := { r' with
            attempts := r'.attempts + 1,
            last_error := some f.2 }, dead_lettered_at := f.1 }, ?_, ?_, hc, hd⟩
        · show (fail ceiling f.1 f.2 rid (apply_fails ceiling rid L s)).dead_letters =
            s.dead_letters ++ _
          rw [hfin.2, he]
        · show r'.attempts + 1 = ceiling
          omega
  · intro ceiling now e rid r s h1 h2 h3
    have hstep := fail_step_retry ceiling now e rid r s h1 h2 h3
    exact ⟨{ r with
        attempts := r.attempts + 1,
        last_error := some e,
        next_retry_at := now + backoff_delay_ms (r.attempts + 1) },
      hstep.1, rfl, rfl, hstep.2⟩

/-- C2 witness: the fresh row `c2_row` dead-letters after the default five
consecutive failures with `attempts = 5`, and a first failure merely
reschedules it. -/
theorem fail_dead_letters_after_ceiling_witness :
    ((apply_fails 5 3 c2_fails c2_state).outbox = [] ∧
      ∃ d : DeadLetterRow,
        (apply_fails 5 3 c2_fails c2_state).dead_letters =
          c2_state.dead_letters ++ [d] ∧
        d.row.attempts = 5 ∧ d.row.id = 3 ∧ d.row.msg = c2_row.msg) ∧
    (∃ r' : OutboxRow,
      (fail 5 10 ("e") 3 c2_state).outbox = [r'] ∧
      r'.attempts = c2_row.attempts + 1 ∧
      r'.next_retry_at = 10 + backoff_delay_ms (c2_row.attempts + 1) ∧
      (fail 5 10 ("e") 3 c2_state).dead_letters = c2_state.dead_letters) :=
  ⟨fail_dead_letters_after_ceiling.1 5 3 c2_fails c2_row c2_state
      rfl rfl rfl (by decide) (by decide),
   fail_dead_letters_after_ceiling.2 5 10 ("e") 3 c2_row c2_state
      rfl rfl (by decide)⟩

/-! ### C4: the claim-batch drain query -/

/-- C4 counterexample: with two due, unclaimed rows and `limit = 1`, the
later row `c4_rowB` is due (its `next_retry_at` has passed, it is not
claimed, its attempt count is below the default ceiling) yet it is not in
the claimed batch — the exclusion biconditional of the claim fails once
the limit truncates the batch. -/
theorem claim_batch_limit_counterexample :
    c4_rowB ∈ [c4_rowA, c4_rowB] ∧
    c4_rowB.next_retry_at ≤ 10 ∧
    c4_rowB.claimed = false ∧
    row_due 10 c4_rowB = true ∧
    c4_rowB.attempts < PGMQTTPUB_POISON_MAX_ATTEMPTS_DEFAULT ∧
    c4_rowB ∉ claim_batch 1 10 [c4_rowA, c4_rowB] := by
  decide

/-- C4 (amended): `claim_batch(limit)` returns at most `limit` rows ordered
by `created_at` ascending; every returned row is a queue row that is due
and unclaimed; a row whose `next_retry_at` is in the future or that is
claimed by a concurrent drainer is always excluded; and a due, unclaimed
row is included whenever the due rows fit within the limit. -/
theorem claim_batch_spec :
    ∀ (limit now : Nat) (outbox : List OutboxRow),
      (claim_batch limit now outbox).length ≤ limit ∧
      (claim_batch limit now outbox).Pairwise rowLe ∧
      (∀ r ∈ claim_batch limit now outbox, r ∈ outbox ∧ row_due now r = true) ∧
      (∀ r ∈ outbox, row_due now r = false →
        r ∉ claim_batch limit now outbox) ∧
      ((outbox.filter (row_due now)).length ≤ limit →
        ∀ r ∈ outbox, row_due now r = true → r ∈ claim_batch limit now outbox) := by
  intro limit now outbox
  refine ⟨?_, ?_, ?_, ?_, ?_⟩
  · rw [claim_batch, List.length_take]
    exact Nat.min_le_left _ _
  · exact List.Pairwise.sublist (List.take_sublist _ _)
      (List.sorted_insertionSort rowLe _)
  · intro r hr
    have h1 : r ∈ List.insertionSort rowLe (outbox.filter (row_due now)) :=
      (List.take_sublist _ _).subset hr
    have h2 : r ∈ outbox.filter (row_due now) :=
      (List.mem_insertionSort rowLe).1 h1
    exact List.mem_filter.1 h2
  · intro r _ hdue hr
    have h2 := List.mem_filter.1
      ((List.mem_insertionSort rowLe).1 ((List.take_sublist _ _).subset hr))
    rw [hdue] at h2
    exact absurd h2.2 (by decide)
  · intro hlen r hr hdue
    have hslen : (List.insertionSort rowLe (outbox.filter (row_due now))).length ≤ limit := by
      rw [(List.perm_insertionSort rowLe _).length_eq]
      exact hlen
    rw [claim_batch, List.take_of_length_le hslen]
    exact (List.mem_insertionSort rowLe).2 (List.mem_filter.2 ⟨hr, hdue⟩)

/-- C4 witness: the amended statement at the two-row queue with a limit
that fits both rows — both due rows are claimed, in `created_at` order. -/
theorem claim_batch_spec_witness :
    (claim_batch 2 10 [c4_rowA, c4_rowB]).length ≤ 2 ∧
    (claim_batch 2 10 [c4_rowA, c4_rowB]).Pairwise rowLe ∧
    c4_rowB ∈ claim_batch 2 10 [c4_rowA, c4_rowB] :=
  ⟨(claim_batch_spec 2 10 [c4_rowA, c4_rowB]).1,
   (claim_batch_spec 2 10 [c4_rowA, c4_rowB]).2.1,
   (claim_batch_spec 2 10 [c4_rowA, c4_rowB]).2.2.2.2 (by decide) c4_rowB
     (by decide) (by decide)⟩

/-! ### C8: dead-letter replay -/

/-- C8: every dead-letter row selected by `replay(filter, limit)` is
reinserted into the Durable Queue as a fresh row with `attempts = 0` and
`next_retry_at = now` and removed from the dead-letter set, while every
unselected dead-letter row is kept unchanged (in a store whose dead-letter
identities are distinct). -/
theorem replay_dead_letters_spec :
    ∀ (flt : DeadLetterRow → Bool) (limit now : Nat) (s : SysState),
      (s.dead_letters.map (fun d => d.row.id)).Nodup →
      (∀ d ∈ replay_matched flt limit s,
        ({ d.row with attempts := 0, next_retry_at := now, claimed := false } :
            OutboxRow) ∈ (replay_dead_letters flt limit now s).outbox ∧
        d ∉ (replay_dead_letters flt limit now s).dead_letters) ∧
      (∀ d ∈ s.dead_letters, d ∉ replay_matched flt limit s →
        d ∈ (replay_dead_letters flt limit now s).dead_letters) := by
  intro flt limit now s hnd
  constructor
  · intro d hd
    constructor
    · show _ ∈ s.outbox ++ (replay_matched flt limit s).map _
      exact List.mem_append.2 (Or.inr (List.mem_map_of_mem _ hd))
    · intro hmem
      have h2 := List.mem_filter.1 hmem
      have h3 : d.row.id ∈ (replay_matched flt limit s).map (fun d => d.row.id) :=
        List.mem_map_of_mem _ hd
      rw [decide_eq_true h3] at h2
      exact absurd h2.2 (by decide)
  · intro d hd hnm
    show d ∈ s.dead_letters.filter _
    refine List.mem_filter.2 ⟨hd, ?_⟩
    have hnotin : d.row.id ∉ (replay_matched flt limit s).map (fun d => d.row.id) := by
      intro hin
      obtain ⟨d', hd', heq⟩ := List.mem_map.1 hin
      have hd'2 : d' ∈ s.dead_letters.filter flt :=
        (List.take_sublist _ _).subset hd'
      have hd'3 : d' ∈ s.dead_letters := (List.filter_sublist _).subset hd'2
      have : d' = d := List.inj_on_of_nodup_map hnd hd'3 hd heq
      rw [this] at hd'
      exact hnm hd'
    simp [hnotin]

/-- C8 witness: replaying the dead letters stamped before time 101 against
`c8_state` requeues `c8_deadA` with `attempts = 0` and `next_retry_at =
200`, removes it from the dead letters, and keeps `c8_deadB`. -/
theorem replay_dead_letters_spec_witness :
    (({ c8_deadA.row with
        attempts := 0,
        next_retry_at := 200,
        claimed := false } : OutboxRow) ∈
      (replay_dead_letters c8_filter 5 200 c8_state).outbox ∧
      c8_deadA ∉ (replay_dead_letters c8_filter 5 200 c8_state).dead_letters) ∧
    c8_deadB ∈ (replay_dead_letters c8_filter 5 200 c8_state).dead_letters :=
  ⟨(replay_dead_letters_spec c8_filter 5 200 c8_state (by decide)).1 c8_deadA
      (by decide),
   (replay_dead_letters_spec c8_filter 5 200 c8_state (by decide)).2 c8_deadB
      (by decide) (by decide)⟩

end PgMqttPub
